import Mathlib

set_option maxRecDepth 8000

/-!
Shallow embedding of `tools/svd2regs.py`, the SVD-to-Rust register binding
generator.  The object model (Device, Peripheral, Register, Field,
EnumeratedValue) follows the cmsis-svd model consumed by the script; every
rendering function below mirrors one `CodeBlock` subclass or helper of the
Python source, template text included.  Fallible rendering is modelled with
`Except String String`: the only failure source is the enum-identifier
fallback chain, which in the source applies the string method `startswith`
to the integer literal value and hence raises `AttributeError` in Python.
-/

namespace Svd2Regs

/-- One enumerated value of a bit field.  Per the SVD object model and the
spec, the literal `value` is an integer. -/
structure EnumeratedValue where
  name : String
  description : String
  value : Int
  deriving DecidableEq

/-- One bit field of a register. -/
structure Field where
  name : String
  description : String
  bit_offset : Nat
  bit_width : Nat
  is_enumerated_type : Bool
  enumerated_values : List EnumeratedValue
  deriving DecidableEq

/-- Register access mode; the source maps exactly these three strings
through `mode_map`. -/
inductive AccessMode where
  | readOnly
  | readWrite
  | writeOnly
  deriving DecidableEq

/-- One register (`_size` and `_access` in the cmsis-svd model). -/
structure Register where
  name : String
  description : String
  size : Nat
  access : AccessMode
  fields : List Field
  deriving DecidableEq

/-- One peripheral. -/
structure Peripheral where
  name : String
  description : String
  base_address : Nat
  registers : List Register
  deriving DecidableEq

/-- The device: an ordered sequence of peripherals. -/
structure Device where
  peripherals : List Peripheral
  deriving DecidableEq

/-- RUST_KEYWORDS from the source. -/
def RUST_KEYWORDS : List String := ["mod"]

/-- COMMENT_MAX_LENGTH from the source. -/
def COMMENT_MAX_LENGTH : Nat := 80

/-- Python `s[:n]`: the first n characters of s. -/
def pyTake (s : String) (n : Nat) : String :=
  String.mk (s.data.take n)

/-- Drop leading whitespace characters of a character list. -/
def dropLeadingWs : List Char → List Char
  | [] => []
  | c :: cs => if c.isWhitespace then dropLeadingWs cs else c :: cs

/-- Python `str.strip()`: remove leading and trailing whitespace. -/
def pyStrip (s : String) : String :=
  String.mk ((dropLeadingWs (dropLeadingWs s.data).reverse).reverse)

/-- Python `str.lower()` on the ASCII names the script handles. -/
def pyLower (s : String) : String :=
  String.mk (s.data.map Char.toLower)

/-- Source `comment(text)`: `"/// ".format(text[:COMMENT_MAX_LENGTH].strip())`. -/
def comment (text : String) : String :=
  "/// " ++ pyStrip (pyTake text COMMENT_MAX_LENGTH)

/-- Python `str.title()` restricted to the ASCII names the script handles: a
letter is upper-cased when the previous character is not a letter and
lower-cased otherwise. -/
def pyTitleGo : Bool → List Char → List Char
  | _, [] => []
  | prev, c :: cs =>
    if c.isAlpha then
      (if prev then c.toLower else c.toUpper) :: pyTitleGo true cs
    else
      c :: pyTitleGo false cs

/-- Python `s.title()`. -/
def pyTitle (s : String) : String :=
  String.mk (pyTitleGo false s.data)

/-- Upper-case hexadecimal digits of a natural number (Python `"{:X}"`). -/
def toHexUpper (n : Nat) : String :=
  String.mk ((Nat.toDigits 16 n).map Char.toUpper)

/-- Python format spec width 8 without a zero flag: right-align in 8
characters, padding with spaces on the left (`"{:8X}"` after the digits are
produced). -/
def padLeft8 (s : String) : String :=
  String.mk (List.replicate (8 - s.length) ' ') ++ s

/-- The `Includes` code block: the fixed shared prelude. -/
def Includes : String :=
  "\nuse kernel::StaticRef;\nuse kernel::common::regs::\x7bself, ReadOnly, ReadWrite, WriteOnly\x7d;\n    "

/-- The `PeripheralBaseDeclaration` code block. -/
def PeripheralBaseDeclaration (p : Peripheral) : String :=
  "\nconst " ++ p.name ++ "_BASE: StaticRef<" ++ pyTitle p.name
    ++ "Registers> =\n    unsafe \x7b StaticRef::new(0x"
    ++ padLeft8 (toHexUpper p.base_address) ++ " as *const " ++ pyTitle p.name
    ++ "Registers) \x7d;\n"

/-- Inner helper `identifier(name)` of `PeripheralStructField.fields`:
lower-case the register name and append `_` when it collides with a Rust
keyword. -/
def structFieldIdentifier (name : String) : String :=
  let i := pyLower name
  if i ∈ RUST_KEYWORDS then i ++ "_" else i

/-- Inner helper `definition(reg)` of `PeripheralStructField.fields`: empty
when the register has exactly one field, otherwise a second type parameter
naming the register's bitfield block by the raw register name. -/
def structFieldDefinition (r : Register) : String :=
  if r.fields.length = 1 then "" else ", " ++ r.name ++ "::Register"

/-- The `mode_map` lookup of the source. -/
def accessModeStr : AccessMode → String
  | .readOnly => "ReadOnly"
  | .readWrite => "ReadWrite"
  | .writeOnly => "WriteOnly"

/-- The `PeripheralStructField` code block: one struct member line. -/
def PeripheralStructField (r : Register) : String :=
  comment r.description ++ "\n" ++ structFieldIdentifier r.name ++ ": "
    ++ accessModeStr r.access ++ "<u" ++ toString r.size
    ++ structFieldDefinition r ++ ">,"

/-- The `PeripheralStruct` code block. -/
def PeripheralStruct (p : Peripheral) : String :=
  comment p.description ++ "\n#[repr(C, packed)]\nstruct " ++ pyTitle p.name
    ++ "Registers \x7b\n"
    ++ String.intercalate "\n" (p.registers.map PeripheralStructField)
    ++ "\n\x7d\n"

/-- First character a decimal digit
(`any(desc.startswith(str(digit)) for digit in range(10))`). -/
def startsWithDigit (s : String) : Bool :=
  match s.data with
  | [] => false
  | c :: _ => c.isDigit

/-- A maximal run of alphanumeric characters becomes one word; every other
character separates words.  Helper for `upperCamel`. -/
def wordsAux : List Char → List Char → List (List Char)
  | [], acc => if acc.isEmpty then [] else [acc.reverse]
  | c :: cs, acc =>
    if c.isAlphanum then wordsAux cs (c :: acc)
    else if acc.isEmpty then wordsAux cs []
    else acc.reverse :: wordsAux cs []

/-- Capitalize one word: first character upper-cased, rest lower-cased. -/
def capitalizeWord : List Char → List Char
  | [] => []
  | c :: cs => c.toUpper :: cs.map Char.toLower

/-- Model of `pydentifier.upper_camel`, the external identifier-derivation
dependency of the script (its source is not part of this repository): the
spec describes it as conversion of free text to an upper-camel-case
identifier, which we realise as splitting into alphanumeric words and
capitalizing each. -/
def upperCamel (s : String) : String :=
  String.mk (((wordsAux s.data []).map capitalizeWord).flatten)

/-- Inner helper `identifier(desc)` of `BitfieldFieldEnum.fields`: prepend
`_` when the text starts with a digit, derive the upper-camel identifier,
and reject (None) identifiers of length 80 or more. -/
def identifier (desc : String) : Option String :=
  let d := if startsWithDigit desc then "_" ++ desc else desc
  let i := upperCamel d
  if i.length < 80 then some i else none

/-- Python truthiness filter `if i:` applied to the result of
`identifier`: both `None` and the empty string are rejected. -/
def usableId : Option String → Option String
  | none => none
  | some i => if i = "" then none else some i

/-- The exception raised by the source when the fallback chain reaches the
integer literal value: `identifier` calls `desc.startswith(...)` on it, and
Python integers have no such method. -/
def attributeErrorMsg : String :=
  "AttributeError: int object has no attribute startswith"

/-- Inner helper `enum_identifier(e)` of `BitfieldFieldEnum.fields`: try the
description, then the name; the third candidate, `e.value`, is an integer,
so evaluating `identifier` on it raises `AttributeError` in the source
before any usability filtering can happen. -/
def enum_identifier (e : EnumeratedValue) : Except String String :=
  match usableId (identifier e.description) with
  | some i => .ok i
  | none =>
    match usableId (identifier e.name) with
    | some i => .ok i
    | none => .error attributeErrorMsg

/-- The `BitfieldFieldEnum` code block: one rendered enumerated variant. -/
def BitfieldFieldEnum (e : EnumeratedValue) : Except String String :=
  match enum_identifier e with
  | .error msg => .error msg
  | .ok n =>
      .ok ("        " ++ comment e.description ++ "\n        " ++ n ++ " = "
        ++ toString e.value)

/-- The accumulator loop of `BitfieldField.enumerated_values`: append a
value only when its description was not seen on an earlier value. -/
def dedupGo (acc : List EnumeratedValue) :
    List EnumeratedValue → List EnumeratedValue
  | [] => acc
  | v :: vs =>
    if v.description ∈ acc.map EnumeratedValue.description then dedupGo acc vs
    else dedupGo (acc ++ [v]) vs

/-- Source staticmethod `BitfieldField.enumerated_values(field)`:
first-occurrence-wins deduplication of the field's enumerated values by
description. -/
def BitfieldField.enumerated_values (f : Field) : List EnumeratedValue :=
  dedupGo [] f.enumerated_values

/-- Render each element, from left to right, failing on the first error —
the evaluation order of Python's `",".join(generator)` when an element
raises. -/
def mapRender {α : Type} (g : α → Except String String) :
    List α → Except String (List String)
  | [] => .ok []
  | x :: xs =>
    match g x with
    | .error e => .error e
    | .ok r =>
      match mapRender g xs with
      | .error e => .error e
      | .ok rs => .ok (r :: rs)

/-- The `enums` entry of `BitfieldField.fields`: `"[]"` for a
non-enumerated field, otherwise the joined, bracketed variant list over the
deduplicated values. -/
def renderEnums (f : Field) : Except String String :=
  if f.is_enumerated_type then
    match mapRender BitfieldFieldEnum (BitfieldField.enumerated_values f) with
    | .error e => .error e
    | .ok vs => .ok ("[\n" ++ String.intercalate ",\n" vs ++ "\n    ]")
  else .ok "[]"

/-- The `BitfieldField` code block: one rendered field line.  Note the
source emits `field.name` verbatim here, with no sanitization. -/
def BitfieldField (f : Field) : Except String String :=
  match renderEnums f with
  | .error e => .error e
  | .ok enums =>
      .ok ("    " ++ comment f.description ++ "\n    " ++ f.name
        ++ " OFFSET(" ++ toString f.bit_offset ++ ") NUMBITS("
        ++ toString f.bit_width ++ ") " ++ enums)

/-- The `Bitfield` code block: the named block for one register. -/
def Bitfield (r : Register) : Except String String :=
  match mapRender BitfieldField r.fields with
  | .error e => .error e
  | .ok fs => .ok ("\n" ++ r.name ++ " [\n" ++ String.intercalate ",\n" fs ++ "\n]")

/-- The `BitfieldsMacro` code block: the bitfields container.  Its `size`
entry is the constant 32 in the source, independent of the registers. -/
def BitfieldsMacroBlock (registers : List Register) : Except String String :=
  match mapRender Bitfield registers with
  | .error e => .error e
  | .ok bs =>
      .ok ("register_bitfields![u32," ++ String.intercalate "," bs ++ "\n];")

/-- Source `generate_peripherial(peripheral)` (sic): struct, then the
bitfields container over the registers with more than one field, then the
base-address declaration. -/
def generate_peripherial (p : Peripheral) : Except String String :=
  match BitfieldsMacroBlock
      (p.registers.filter (fun r => decide (r.fields.length > 1))) with
  | .error e => .error e
  | .ok bm => .ok (PeripheralStruct p ++ bm ++ PeripheralBaseDeclaration p)

/-- Source `generate(peripherals)`: the prelude followed by the
newline-joined per-peripheral renderings. -/
def generate (peripherals : List Peripheral) : Except String String :=
  match mapRender generate_peripherial peripherals with
  | .error e => .error e
  | .ok parts => .ok (Includes ++ String.intercalate "\n" parts)

/-- Source `parse(peripherals, mcu, svd)` with the SVD loading abstracted
away (the loader is an external collaborator): an empty request list means
every peripheral name; then the device's peripherals are filtered, in
order, to those whose name occurs in the request list. -/
def parse (dev : Device) (peripherals : List String) : List Peripheral :=
  let names :=
    if peripherals.isEmpty then dev.peripherals.map Peripheral.name
    else peripherals
  dev.peripherals.filter (fun p => decide (p.name ∈ names))

/-- The core operation `render(device, selected_names)` of the spec:
`generate(parse(...))` as composed in `main`. -/
def render (dev : Device) (selected : List String) : Except String String :=
  generate (parse dev selected)

/-- Concrete device for the unresolvable-selection experiment: one
peripheral named UART0. -/
def exDevC1 : Device := ⟨[⟨"UART0", "uart zero", 0x40001000, []⟩]⟩

/-- Enumerated value whose description and name derive empty identifiers
and whose literal value has 81 decimal digits, so that all three fallback
candidates fail the usability filter. -/
def exBadEnum : EnumeratedValue := ⟨"", "", (10 : Int) ^ 80⟩

/-- Field carrying `exBadEnum`. -/
def exBadField : Field := ⟨"MODE", "mode", 0, 2, true, [exBadEnum]⟩

/-- Two-field register carrying `exBadField`, so its bitfield block is
rendered. -/
def exBadReg : Register :=
  ⟨"CR", "control", 32, .readWrite, [exBadField, ⟨"EN", "en", 2, 1, false, []⟩]⟩

/-- Device carrying `exBadReg` inside peripheral TIM. -/
def exDevC2 : Device := ⟨[⟨"TIM", "timer", 0x40000000, [exBadReg]⟩]⟩

/-- Peripheral in which no register has more than one field. -/
def exPerC3 : Peripheral :=
  ⟨"TIM", "Timer", 0x40000000,
    [⟨"CR", "ctl", 32, .readWrite, [⟨"EN", "enable", 0, 1, false, []⟩]⟩]⟩

/-- Register with zero fields. -/
def exRegC4 : Register := ⟨"R0", "empty reg", 32, .readWrite, []⟩

/-- The CTRL register of the spec's worked example. -/
def ctrlReg : Register :=
  ⟨"CTRL", "Control register", 32, .readWrite,
    [⟨"EN", "Enable", 0, 1, false, []⟩,
     ⟨"MODE", "Mode select", 1, 2, true,
       [⟨"FAST", "Fast", 1⟩, ⟨"SLOW", "Slow", 2⟩]⟩]⟩

/-- Field whose name is the Rust keyword `mod`. -/
def exModField : Field := ⟨"mod", "modulation", 3, 1, false, []⟩

/-- Field with a duplicated description (Low appears twice with different
literal values) for the deduplication witness. -/
def exFieldC7 : Field :=
  ⟨"SPD", "speed", 0, 2, true,
    [⟨"A", "Low", 0⟩, ⟨"B", "Low", 1⟩, ⟨"C", "High", 2⟩]⟩

/-- Peripheral whose base address has five hex digits. -/
def exPerC8 : Peripheral := ⟨"P", "Port", 0x40000, []⟩

/-- Peripheral whose base address has exactly eight hex digits. -/
def exPerC8b : Peripheral := ⟨"UART0", "Uart", 0x40000000, []⟩

/-- Two-peripheral device for the selection witness. -/
def exDevC9 : Device :=
  ⟨[⟨"UART0", "uart zero", 0x40001000, []⟩,
    ⟨"UART1", "uart one", 0x40002000, []⟩]⟩

/-- Register of width 8 with two fields, exercising the constant u32 of the
bitfields container. -/
def exRegC10 : Register :=
  ⟨"R", "r", 8, .readOnly,
    [⟨"A", "a", 0, 1, false, []⟩, ⟨"B", "b", 1, 1, false, []⟩]⟩

/-- Substring occurrence test on character lists: does `pat` occur starting
at the head? -/
def leadsWith : List Char → List Char → Bool
  | [], _ => true
  | _ :: _, [] => false
  | p :: ps, c :: cs => p == c && leadsWith ps cs

/-- Substring occurrence test on character lists, at any position. -/
def occursIn (pat : List Char) : List Char → Bool
  | [] => pat.isEmpty
  | c :: cs => leadsWith pat (c :: cs) || occursIn pat cs

/-- Whether `pat` occurs as a substring of `s`. -/
def containsSubstring (s pat : String) : Bool :=
  occursIn pat.data s.data

/-- Reference recursion for the deduplication loop: keep a value only when
its description is not in `seen`, threading the seen set forward. -/
def firstOccs (seen : List String) : List EnumeratedValue → List EnumeratedValue
  | [] => []
  | v :: vs =>
    if v.description ∈ seen then firstOccs seen vs
    else v :: firstOccs (v.description :: seen) vs

theorem firstOccs_congr (l : List EnumeratedValue) :
    ∀ s1 s2, (∀ x, x ∈ s1 ↔ x ∈ s2) → firstOccs s1 l = firstOccs s2 l := by
  induction l with
  | nil => intro s1 s2 _; rfl
  | cons v vs ih =>
    intro s1 s2 h
    simp only [firstOccs]
    by_cases hv : v.description ∈ s1
    · rw [if_pos hv, if_pos ((h _).mp hv)]
      exact ih _ _ h
    · rw [if_neg hv, if_neg (fun hc => hv ((h _).mpr hc))]
      refine congrArg (v :: ·) (ih _ _ ?_)
      intro x
      simp only [List.mem_cons]
      exact or_congr Iff.rfl (h x)

theorem dedupGo_eq (l : List EnumeratedValue) :
    ∀ acc, dedupGo acc l = acc ++ firstOccs (acc.map EnumeratedValue.description) l := by
  induction l with
  | nil => intro acc; simp [dedupGo, firstOccs]
  | cons v vs ih =>
    intro acc
    simp only [dedupGo, firstOccs]
    by_cases hv : v.description ∈ acc.map EnumeratedValue.description
    · rw [if_pos hv, if_pos hv, ih]
    · rw [if_neg hv, if_neg hv, ih]
      rw [List.append_assoc]
      refine congrArg (acc ++ ·) ?_
      simp only [List.singleton_append]
      refine congrArg (v :: ·) ?_
      rw [List.map_append]
      refine firstOccs_congr vs _ _ ?_
      intro x
      simp [List.mem_append, List.mem_cons, or_comm]

theorem mem_map_firstOccs (l : List EnumeratedValue) :
    ∀ seen d, d ∈ (firstOccs seen l).map EnumeratedValue.description
      ↔ d ∈ l.map EnumeratedValue.description ∧ d ∉ seen := by
  induction l with
  | nil => intro seen d; simp [firstOccs]
  | cons v vs ih =>
    intro seen d
    simp only [firstOccs]
    by_cases hv : v.description ∈ seen
    · rw [if_pos hv, ih]
      simp only [List.map_cons, List.mem_cons]
      constructor
      · rintro ⟨h1, h2⟩
        exact ⟨Or.inr h1, h2⟩
      · rintro ⟨h1 | h1, h2⟩
        · exact absurd (h1 ▸ hv) h2
        · exact ⟨h1, h2⟩
    · rw [if_neg hv]
      simp only [List.map_cons, List.mem_cons, ih]
      by_cases hd : d = v.description
      · subst hd
        simp [hv]
      · simp only [hd, false_or]

theorem nodup_map_firstOccs (l : List EnumeratedValue) :
    ∀ seen, ((firstOccs seen l).map EnumeratedValue.description).Nodup := by
  induction l with
  | nil => intro seen; simp [firstOccs]
  | cons v vs ih =>
    intro seen
    simp only [firstOccs]
    by_cases hv : v.description ∈ seen
    · rw [if_pos hv]
      exact ih seen
    · rw [if_neg hv]
      simp only [List.map_cons, List.nodup_cons]
      refine ⟨fun hc => ?_, ih _⟩
      rw [mem_map_firstOccs] at hc
      exact hc.2 (List.mem_cons_self _ _)

theorem find?_firstOccs (l : List EnumeratedValue) :
    ∀ seen v, v ∈ firstOccs seen l →
      l.find? (fun w => w.description == v.description) = some v := by
  induction l with
  | nil => intro seen v h; simp [firstOccs] at h
  | cons u vs ih =>
    intro seen v h
    simp only [firstOccs] at h
    by_cases hu : u.description ∈ seen
    · rw [if_pos hu] at h
      have hmem : v.description ∈ (firstOccs seen vs).map EnumeratedValue.description :=
        List.mem_map_of_mem _ h
      rw [mem_map_firstOccs] at hmem
      have hne : ¬(u.description == v.description) = true := by
        intro hb
        exact hmem.2 ((eq_of_beq hb) ▸ hu)
      have hstep : List.find? (fun w => w.description == v.description) (u :: vs)
          = List.find? (fun w => w.description == v.description) vs :=
        List.find?_cons_of_neg _ hne
      rw [hstep]
      exact ih seen v h
    · rw [if_neg hu] at h
      rcases List.mem_cons.mp h with h | h
      · subst h
        exact List.find?_cons_of_pos _ (beq_self_eq_true _)
      · have hmem : v.description ∈
            (firstOccs (u.description :: seen) vs).map EnumeratedValue.description :=
          List.mem_map_of_mem _ h
        rw [mem_map_firstOccs] at hmem
        have hne : ¬(u.description == v.description) = true := by
          intro hb
          exact hmem.2 ((eq_of_beq hb) ▸ List.mem_cons_self _ _)
        have hstep : List.find? (fun w => w.description == v.description) (u :: vs)
            = List.find? (fun w => w.description == v.description) vs :=
          List.find?_cons_of_neg _ hne
        rw [hstep]
        exact ih _ v h

theorem firstOccs_sublist (l : List EnumeratedValue) :
    ∀ seen, List.Sublist (firstOccs seen l) l := by
  induction l with
  | nil => intro seen; simp [firstOccs]
  | cons v vs ih =>
    intro seen
    simp only [firstOccs]
    by_cases hv : v.description ∈ seen
    · rw [if_pos hv]
      exact (ih seen).cons v
    · rw [if_neg hv]
      exact (ih _).cons₂ v

theorem mapRender_ok_length {α : Type} (g : α → Except String String) :
    ∀ (l : List α) (rs : List String), mapRender g l = .ok rs → rs.length = l.length := by
  intro l
  induction l with
  | nil =>
    intro rs h
    simp only [mapRender] at h
    cases h
    rfl
  | cons x xs ih =>
    intro rs h
    simp only [mapRender] at h
    cases hgx : g x with
    | error e => rw [hgx] at h; cases h
    | ok r =>
      rw [hgx] at h
      cases hrec : mapRender g xs with
      | error e => rw [hrec] at h; cases h
      | ok rs' =>
        rw [hrec] at h
        cases h
        simp [ih rs' hrec]

/-- C1 (counterexample): requesting the absent peripheral GPIOX does not
fail; `render` silently skips it and returns prelude-only output. -/
theorem C1_counterexample :
    exDevC1.peripherals.map Peripheral.name = ["UART0"]
    ∧ render exDevC1 ["GPIOX"] = .ok Includes := by
  exact ⟨by decide, by rfl⟩

/-- C1 (amended): a selected name matching no peripheral is silently
dropped: `render` succeeds on the filtered peripheral list, and when no
selected name matches any peripheral it returns exactly the prelude. -/
theorem C1_amended_silent_skip (dev : Device) (sel : List String)
    (hne : sel ≠ []) :
    render dev sel
      = generate (dev.peripherals.filter (fun p => decide (p.name ∈ sel)))
    ∧ ((∀ p ∈ dev.peripherals, p.name ∉ sel) → render dev sel = .ok Includes) := by
  have hparse : parse dev sel
      = dev.peripherals.filter (fun p => decide (p.name ∈ sel)) := by
    cases sel with
    | nil => exact absurd rfl hne
    | cons a as => rfl
  constructor
  · show generate (parse dev sel) = _
    rw [hparse]
  · intro h
    have hnil : dev.peripherals.filter (fun p => decide (p.name ∈ sel)) = [] := by
      rw [List.filter_eq_nil_iff]
      intro p hp
      simp only [decide_eq_true_eq]
      exact h p hp
    show generate (parse dev sel) = .ok Includes
    rw [hparse, hnil]
    rfl

/-- C1 (witness): the amended statement at the concrete device and the
concrete missing selection GPIOX. -/
theorem C1_amended_witness :
    render exDevC1 ["GPIOX"] = .ok Includes :=
  (C1_amended_silent_skip exDevC1 ["GPIOX"] (by decide)).2 (by decide)

/-- C2 (counterexample): an EnumeratedValue whose description, name and
(81-digit) literal value all fail the usability filter does not make
rendering fail with an error naming the Peripheral/Register/Field; the
code fails with a bare AttributeError mentioning none of TIM, CR, MODE. -/
theorem C2_counterexample :
    usableId (identifier exBadEnum.description) = none
    ∧ usableId (identifier exBadEnum.name) = none
    ∧ identifier (toString exBadEnum.value) = none
    ∧ render exDevC2 [] = .error attributeErrorMsg
    ∧ containsSubstring attributeErrorMsg "TIM" = false
    ∧ containsSubstring attributeErrorMsg "CR" = false
    ∧ containsSubstring attributeErrorMsg "MODE" = false := by
  exact ⟨by decide, by decide, by decide, by rfl, by decide, by decide, by decide⟩

/-- C2 (amended): whenever both the description and the name of an
enumerated value fail the usability filter, its rendering fails with the
AttributeError raised by applying the string filter to the integer literal
value; no variant identifier is emitted, and the error names no
Peripheral/Register/Field. -/
theorem C2_amended_attribute_error (e : EnumeratedValue)
    (h1 : usableId (identifier e.description) = none)
    (h2 : usableId (identifier e.name) = none) :
    BitfieldFieldEnum e = .error attributeErrorMsg := by
  unfold BitfieldFieldEnum enum_identifier
  rw [h1, h2]

/-- C2 (witness): the amended statement at a concrete enumerated value with
empty description and name. -/
theorem C2_amended_witness :
    BitfieldFieldEnum ⟨"", "", 3⟩ = .error attributeErrorMsg :=
  C2_amended_attribute_error ⟨"", "", 3⟩ (by decide) (by decide)

/-- C3 (counterexample): a peripheral in which no register has more than
one field still gets a bitfields container, emitted as the empty construct
`register_bitfields![u32,\n];`. -/
theorem C3_counterexample :
    exPerC3.registers.all (fun r => decide (r.fields.length ≤ 1)) = true
    ∧ generate_peripherial exPerC3
        = .ok (PeripheralStruct exPerC3 ++ "register_bitfields![u32,\n];"
            ++ PeripheralBaseDeclaration exPerC3)
    ∧ containsSubstring
        (PeripheralStruct exPerC3 ++ "register_bitfields![u32,\n];"
          ++ PeripheralBaseDeclaration exPerC3) "register_bitfields![u32," = true := by
  exact ⟨by decide, by rfl, by decide⟩

/-- C3 (amended): for every peripheral in which no register has more than
one field, the rendered output contains the bitfields container as an
empty construct rather than omitting it. -/
theorem C3_amended_empty_container (p : Peripheral)
    (h : ∀ r ∈ p.registers, r.fields.length ≤ 1) :
    generate_peripherial p
      = .ok (PeripheralStruct p ++ "register_bitfields![u32,\n];"
          ++ PeripheralBaseDeclaration p) := by
  have hf : p.registers.filter (fun r => decide (r.fields.length > 1)) = [] := by
    rw [List.filter_eq_nil_iff]
    intro r hr
    simp only [decide_eq_true_eq, gt_iff_lt, not_lt]
    exact h r hr
  unfold generate_peripherial
  rw [hf]
  have hmac : BitfieldsMacroBlock [] = .ok "register_bitfields![u32,\n];" := by rfl
  rw [hmac]

/-- C3 (witness): the amended statement at the concrete single-field
peripheral. -/
theorem C3_amended_witness :
    generate_peripherial exPerC3
      = .ok (PeripheralStruct exPerC3 ++ "register_bitfields![u32,\n];"
          ++ PeripheralBaseDeclaration exPerC3) :=
  C3_amended_empty_container exPerC3 (by decide)

/-- C4 (counterexample): a register with zero fields does get a
bitfield-type reference in its struct member line, refuting the claimed
`iff` with having more than one field. -/
theorem C4_counterexample :
    exRegC4.fields.length = 0
    ∧ containsSubstring (PeripheralStructField exRegC4) "::Register" = true := by
  exact ⟨by decide, by decide⟩

/-- C4 (amended): the struct member line carries the bitfield-type
reference exactly when the register's field count is not one — so registers
with zero fields get the reference too, and one-field registers never do. -/
theorem C4_amended_reference_condition (r : Register) :
    (structFieldDefinition r = "" ↔ r.fields.length = 1)
    ∧ (r.fields.length ≠ 1 →
        structFieldDefinition r = ", " ++ r.name ++ "::Register")
    ∧ PeripheralStructField r
        = comment r.description ++ "\n" ++ structFieldIdentifier r.name ++ ": "
          ++ accessModeStr r.access ++ "<u" ++ toString r.size
          ++ structFieldDefinition r ++ ">," := by
  refine ⟨⟨?_, ?_⟩, ?_, rfl⟩
  · intro he
    by_contra hne
    simp only [structFieldDefinition, if_neg hne] at he
    have hlen := congrArg String.length he
    rw [String.length_append, String.length_append] at hlen
    have h2 : (", " : String).length = 2 := rfl
    have h10 : ("::Register" : String).length = 10 := rfl
    have h0 : ("" : String).length = 0 := rfl
    rw [h2, h10, h0] at hlen
    omega
  · intro h1
    simp only [structFieldDefinition, if_pos h1]
  · intro hne
    simp only [structFieldDefinition, if_neg hne]

/-- C4 (witness): the amended statement at the concrete zero-field
register. -/
theorem C4_amended_witness :
    structFieldDefinition exRegC4 = ", " ++ exRegC4.name ++ "::Register" :=
  (C4_amended_reference_condition exRegC4).2.1 (by decide)

/-- C5 (counterexample): the worked CTRL example's struct member references
the bitfield block by the raw register name CTRL, not by the title-cased
Ctrl the claim states. -/
theorem C5_counterexample :
    containsSubstring (PeripheralStructField ctrlReg) "Ctrl::Register" = false
    ∧ containsSubstring (PeripheralStructField ctrlReg) "CTRL::Register" = true := by
  exact ⟨by decide, by decide⟩

/-- C5 (amended): the CTRL register renders the struct member
`ctrl: ReadWrite<u32, CTRL::Register>` (raw name in the type reference) and
the bitfield block `CTRL [ EN OFFSET(0) NUMBITS(1) [], MODE OFFSET(1)
NUMBITS(2) [ Fast = 1, Slow = 2 ] ]` with comment lines interspersed. -/
theorem C5_amended_render :
    PeripheralStructField ctrlReg
      = "/// Control register\nctrl: ReadWrite<u32, CTRL::Register>,"
    ∧ Bitfield ctrlReg
      = .ok "\nCTRL [\n    /// Enable\n    EN OFFSET(0) NUMBITS(1) [],\n    /// Mode select\n    MODE OFFSET(1) NUMBITS(2) [\n        /// Fast\n        Fast = 1,\n        /// Slow\n        Slow = 2\n    ]\n]" := by
  exact ⟨by decide, by rfl⟩

/-- C6 (counterexample): a field named by the Rust keyword `mod` is emitted
verbatim, unescaped, inside its bitfield block. -/
theorem C6_counterexample :
    exModField.name ∈ RUST_KEYWORDS
    ∧ BitfieldField exModField
        = .ok "    /// modulation\n    mod OFFSET(3) NUMBITS(1) []" := by
  exact ⟨by decide, by rfl⟩

/-- C6 (amended): register struct-member names are lower-cased and
keyword-escaped with a trailing underscore, but bitfield field names are
emitted verbatim with no sanitization. -/
theorem C6_amended_unsanitized (f : Field) (h : f.is_enumerated_type = false) :
    BitfieldField f
      = .ok ("    " ++ comment f.description ++ "\n    " ++ f.name
          ++ " OFFSET(" ++ toString f.bit_offset ++ ") NUMBITS("
          ++ toString f.bit_width ++ ") " ++ "[]")
    ∧ structFieldIdentifier f.name
        = (if pyLower f.name ∈ RUST_KEYWORDS then pyLower f.name ++ "_"
           else pyLower f.name) := by
  constructor
  · simp [BitfieldField, renderEnums, h]
  · rfl

/-- C6 (witness): the amended statement at the concrete `mod`-named
field. -/
theorem C6_amended_witness :
    BitfieldField exModField
      = .ok ("    " ++ comment exModField.description ++ "\n    "
          ++ exModField.name ++ " OFFSET(" ++ toString exModField.bit_offset
          ++ ") NUMBITS(" ++ toString exModField.bit_width ++ ") " ++ "[]") :=
  (C6_amended_unsanitized exModField (by decide)).1

/-- C7: the deduplicated enumerated-value list of a field keeps, in
original order, exactly the first occurrence of each distinct description:
its length is the number of distinct descriptions, each kept value is the
first occurrence of its description (hence carries that occurrence's
literal value), the kept list is a sublist of the original, and the
rendered variant list has exactly that many variants when rendering
succeeds. -/
theorem C7_dedup_by_description (f : Field) (h : f.is_enumerated_type = true) :
    (BitfieldField.enumerated_values f).length
      = (f.enumerated_values.map EnumeratedValue.description).toFinset.card
    ∧ (∀ v ∈ BitfieldField.enumerated_values f,
        f.enumerated_values.find? (fun w => w.description == v.description)
          = some v)
    ∧ List.Sublist (BitfieldField.enumerated_values f) f.enumerated_values
    ∧ (∀ rs, mapRender BitfieldFieldEnum (BitfieldField.enumerated_values f)
          = .ok rs → rs.length = (BitfieldField.enumerated_values f).length) := by
  have hval : BitfieldField.enumerated_values f
      = firstOccs [] f.enumerated_values := by
    unfold BitfieldField.enumerated_values
    rw [dedupGo_eq]
    simp
  refine ⟨?_, ?_, ?_, ?_⟩
  · rw [hval]
    have hnodup := nodup_map_firstOccs f.enumerated_values []
    have hlen : (firstOccs [] f.enumerated_values).length
        = ((firstOccs [] f.enumerated_values).map
            EnumeratedValue.description).length :=
      (List.length_map _ _).symm
    rw [hlen, ← List.toFinset_card_of_nodup hnodup]
    congr 1
    apply Finset.ext
    intro d
    simp only [List.mem_toFinset]
    rw [mem_map_firstOccs]
    simp
  · intro v hv
    rw [hval] at hv
    exact find?_firstOccs _ _ _ hv
  · rw [hval]
    exact firstOccs_sublist _ _
  · intro rs hrs
    exact mapRender_ok_length _ _ _ hrs

/-- C7 (witness): the distinct-description count at a concrete field whose
Low description occurs twice. -/
theorem C7_witness :
    (BitfieldField.enumerated_values exFieldC7).length
      = (exFieldC7.enumerated_values.map
          EnumeratedValue.description).toFinset.card :=
  (C7_dedup_by_description exFieldC7 (by rfl)).1

/-- C8: the base-address declaration formats the address with Python
`{base:8X}`, right-aligned in width 8 with spaces — so a five-hex-digit
base address yields the space-padded, syntactically invalid literal
`0x   40000`, while an eight-digit address yields a well-formed literal. -/
theorem C8_space_padded_base :
    PeripheralBaseDeclaration exPerC8
      = "\nconst P_BASE: StaticRef<PRegisters> =\n    unsafe \x7b StaticRef::new(0x   40000 as *const PRegisters) \x7d;\n"
    ∧ PeripheralBaseDeclaration exPerC8b
      = "\nconst UART0_BASE: StaticRef<Uart0Registers> =\n    unsafe \x7b StaticRef::new(0x40000000 as *const Uart0Registers) \x7d;\n" := by
  exact ⟨by decide, by decide⟩

/-- C9: an empty selection selects every peripheral; a non-empty selection
selects, preserving the device order and multiplicity, exactly the
peripherals whose names are in the selection; the rendered output is the
fixed prelude followed by the newline-joined per-peripheral renderings. -/
theorem C9_selection (dev : Device) (sel : List String) :
    (sel = [] → parse dev sel = dev.peripherals)
    ∧ (sel ≠ [] → parse dev sel
        = dev.peripherals.filter (fun p => decide (p.name ∈ sel)))
    ∧ (∀ parts, mapRender generate_peripherial (parse dev sel) = .ok parts →
        render dev sel = .ok (Includes ++ String.intercalate "\n" parts)) := by
  refine ⟨?_, ?_, ?_⟩
  · intro h
    subst h
    show dev.peripherals.filter
        (fun p => decide (p.name ∈ dev.peripherals.map Peripheral.name))
        = dev.peripherals
    rw [List.filter_eq_self]
    intro p hp
    simp only [decide_eq_true_eq]
    exact List.mem_map_of_mem _ hp
  · intro h
    cases sel with
    | nil => exact absurd rfl h
    | cons a as => rfl
  · intro parts hp
    show generate (parse dev sel) = _
    unfold generate
    rw [hp]

/-- C9 (witness): selecting UART0 from a two-peripheral device filters to
exactly the matching peripheral. -/
theorem C9_witness :
    parse exDevC9 ["UART0"]
      = exDevC9.peripherals.filter
          (fun p => decide (p.name ∈ (["UART0"] : List String))) :=
  (C9_selection exDevC9 ["UART0"]).2.1 (by decide)

/-- C10: every successfully rendered bitfields container starts with
`register_bitfields![u32,` — the declared element width is the constant 32,
whatever the widths of the registers passed in. -/
theorem C10_u32_unconditional (regs : List Register) (s : String)
    (h : BitfieldsMacroBlock regs = .ok s) :
    ∃ rest, s = "register_bitfields![u32," ++ rest := by
  unfold BitfieldsMacroBlock at h
  cases hm : mapRender Bitfield regs with
  | error e => rw [hm] at h; cases h
  | ok bs =>
    rw [hm] at h
    cases h
    exact ⟨String.intercalate "," bs ++ "\n];", String.append_assoc _ _ _⟩

/-- C10 (witness): the container rendered over a width-8 register still
declares u32. -/
theorem C10_witness :
    ∃ rest,
      ("register_bitfields![u32,\nR [\n    /// a\n    A OFFSET(0) NUMBITS(1) [],\n    /// b\n    B OFFSET(1) NUMBITS(1) []\n]\n];" : String)
        = "register_bitfields![u32," ++ rest :=
  C10_u32_unconditional [exRegC10]
    "register_bitfields![u32,\nR [\n    /// a\n    A OFFSET(0) NUMBITS(1) [],\n    /// b\n    B OFFSET(1) NUMBITS(1) []\n]\n];"
    (by rfl)

end Svd2Regs
